import Mathlib

set_option maxHeartbeats 1000000

/-!
Shallow embedding of the three command-line utilities of the paper-review
repository (scripts/fetch_paper.py, scripts/find_repo.py,
scripts/notion_export.py) and proofs about the specified properties.

Conventions of the embedding:
* Python strings are Lean `String`s; Python `None`-able values are `Option`s.
* Python truthiness of a string (`if s:`) is `s ≠ ""`.
* Network and filesystem effects are modelled by passing the remote responses
  (and, for the exporter, by returning the ordered list of issued requests)
  explicitly as data.
* The regular expressions of the source are translated into deterministic
  character-list scanners; for the concrete patterns involved
  (`^\d{4}\.\d{4,5}(v\d+)?$`, `arxiv\.org/(?:abs|pdf)/(\d{4}\.\d{4,5}(?:v\d+)?)`
  and `https?://github\.com/([a-zA-Z0-9_.-]+/[a-zA-Z0-9_.-]+)`) greedy
  scanning coincides with Python's backtracking semantics, because in each
  pattern everything following a greedy repetition is optional or starts with
  a character excluded from the repeated class.  Python's `\d` is modelled as
  the ASCII digits.
-/

/-! ### Python string helpers

All helpers recurse structurally over the character list of the string, so
that every definition evaluates inside the kernel. -/

/-- Equality of Except values over strings is decidable. -/
instance : DecidableEq (Except String String) := fun a b =>
  match a, b with
  | .error x, .error y => decidable_of_iff (x = y) (by simp)
  | .ok x, .ok y => decidable_of_iff (x = y) (by simp)
  | .error _, .ok _ => isFalse (fun h => Except.noConfusion h)
  | .ok _, .error _ => isFalse (fun h => Except.noConfusion h)

/-- Python str.strip with no argument: remove leading and trailing whitespace. -/
def pyStrip (s : String) : String :=
  String.mk (((s.data.dropWhile Char.isWhitespace).reverse.dropWhile
    Char.isWhitespace).reverse)

/-- Accumulator loop for splitting at commas; `cur` holds the current field
reversed. -/
def pySplitCommaAux : List Char → List Char → List String
  | [], cur => [String.mk cur.reverse]
  | c :: cs, cur =>
    if c = ',' then String.mk cur.reverse :: pySplitCommaAux cs []
    else pySplitCommaAux cs (c :: cur)

/-- Python s.split with separator a comma. -/
def pySplitComma (s : String) : List String := pySplitCommaAux s.data []

/-- Accumulator loop for whitespace splitting with empty fields dropped. -/
def pyTokensAux : List Char → List Char → List String
  | [], cur => if cur = [] then [] else [String.mk cur.reverse]
  | c :: cs, cur =>
    if c.isWhitespace then
      if cur = [] then pyTokensAux cs []
      else String.mk cur.reverse :: pyTokensAux cs []
    else pyTokensAux cs (c :: cur)

/-- Python s.split with no argument: split on whitespace runs, dropping empty
parts. -/
def pyTokens (s : String) : List String := pyTokensAux s.data []

/-- Python s.rstrip with an explicit character set: remove trailing characters
belonging to the set. -/
def pyRstripSet (s : String) (bad : List Char) : String :=
  String.mk ((s.data.reverse.dropWhile (fun c => bad.contains c)).reverse)

/-- Python slicing from the left: the first n characters. -/
def pyTake (s : String) (n : Nat) : String := String.mk (s.data.take n)

/-- Python s.replace of newlines by spaces (a one-character replacement is a
character map). -/
def pyReplaceNlSpace (s : String) : String :=
  String.mk (s.data.map (fun c => if c = '\n' then ' ' else c))

/-- Python s.lower, on the ASCII letters involved here. -/
def pyToLower (s : String) : String := String.mk (s.data.map Char.toLower)

/-- Whether a string contains some non-whitespace character: this is the
truthiness of Python s.strip. -/
def hasNonWs (s : String) : Bool := s.data.any (fun c => !c.isWhitespace)

/-- The character data of a blank-line join, Python "\n\n".join. -/
def blankJoinData : List String → List Char
  | [] => []
  | [s] => s.data
  | s :: s2 :: rest => s.data ++ '\n' :: '\n' :: blankJoinData (s2 :: rest)

/-- Python "\n\n".join. -/
def joinBlankLines (parts : List String) : String := String.mk (blankJoinData parts)

/-! ### fetch_paper.py, extract_arxiv_id

`extract_arxiv_id` first tries `re.match` with pattern
`^\d{4}\.\d{4,5}(v\d+)?$` on the whole input, then `re.search` with
`arxiv\.org/(?:abs|pdf)/(\d{4}\.\d{4,5}(?:v\d+)?)`.  The scanners below
implement exactly those two patterns on character lists. -/

/-- Greedy run of characters satisfying a predicate, returning the run and the
remaining characters. -/
def takeRun (p : Char → Bool) : List Char → List Char × List Char
  | [] => ([], [])
  | c :: cs =>
    if p c then
      let r := takeRun p cs
      (c :: r.1, r.2)
    else ([], c :: cs)

/-- Match a literal character-list pattern at the head of the input, returning
the remainder on success. -/
def stripPre : List Char → List Char → Option (List Char)
  | [], cs => some cs
  | _ :: _, [] => none
  | p :: ps, c :: cs => if c = p then stripPre ps cs else none

/-- The optional version suffix `(v\d+)?` of the arXiv identifier pattern,
matched greedily; returns the consumed characters and the rest. -/
def takeVer (cs : List Char) : List Char × List Char :=
  match cs with
  | c :: c2 :: rest =>
    if c == 'v' && c2.isDigit then
      let r := takeRun Char.isDigit (c2 :: rest)
      ('v' :: r.1, r.2)
    else ([], cs)
  | _ => ([], cs)

/-- The part `\d{4,5}(v\d+)?` of the identifier pattern, matched greedily at
the head of the input: at least four digits, at most five (a sixth consecutive
digit is left unconsumed), then the optional version suffix. -/
def matchIdAfterDot (cs : List Char) : Option (List Char × List Char) :=
  let r := takeRun Char.isDigit cs
  if r.1.length < 4 then none
  else
    let taken := r.1.take 5
    let rest2 := r.1.drop 5 ++ r.2
    let v := takeVer rest2
    some (taken ++ v.1, v.2)

/-- The whole identifier pattern `\d{4}\.\d{4,5}(v\d+)?` matched at the head
of the input, returning the matched identifier characters and the rest. -/
def matchId : List Char → Option (List Char × List Char)
  | c1 :: c2 :: c3 :: c4 :: c5 :: rest =>
    if c1.isDigit && c2.isDigit && c3.isDigit && c4.isDigit && c5 == '.' then
      (matchIdAfterDot rest).map (fun p => (c1 :: c2 :: c3 :: c4 :: c5 :: p.1, p.2))
    else none
  | _ => none

/-- Python re.match of `^\d{4}\.\d{4,5}(v\d+)?$` on the whole string; the `$`
anchor also accepts a single trailing newline, as in Python. -/
def bareIdMatch (s : String) : Bool :=
  match matchId s.data with
  | some (_, rest) => rest = [] || rest = ['\n']
  | none => false

/-- Attempt of the search pattern `arxiv\.org/(?:abs|pdf)/(\d{4}\.\d{4,5}(?:v\d+)?)`
anchored at the current position, returning the captured identifier characters. -/
def matchArxivAt (cs : List Char) : Option (List Char) :=
  match stripPre ['a', 'r', 'x', 'i', 'v', '.', 'o', 'r', 'g', '/'] cs with
  | none => none
  | some r1 =>
    let kind :=
      match stripPre ['a', 'b', 's', '/'] r1 with
      | some r2 => some r2
      | none => stripPre ['p', 'd', 'f', '/'] r1
    match kind with
    | none => none
    | some r2 => (matchId r2).map (fun p => p.1)

/-- Python re.search of the arXiv URL pattern: try every position from the
left, returning the first capture. -/
def searchArxiv : List Char → Option (List Char)
  | [] => none
  | c :: cs =>
    match matchArxivAt (c :: cs) with
    | some cap => some cap
    | none => searchArxiv cs

/-- extract_arxiv_id from scripts/fetch_paper.py: a full bare-identifier match
returns the input unchanged, otherwise the first embedded
`arxiv.org/(abs|pdf)/<id>` capture, otherwise no identifier. -/
def extract_arxiv_id (s : String) : Option String :=
  if bareIdMatch s then some s
  else (searchArxiv s.data).map String.mk

/-! ### fetch_paper.py, extract_text_from_pdf -/

/-- Environment visible to extract_text_from_pdf.  `pdftotext` is `none` when
the external tool is missing or times out, otherwise the return code and
standard output of the run.  Each library field is `none` when the import
fails, otherwise the per-page extraction results (`none` for a page whose
extraction returns Python None). -/
structure PdfEnv where
  pdftotext : Option (Int × String)
  pdfplumber : Option (List (Option String))
  pypdf2 : Option (List (Option String))
deriving DecidableEq, Repr

/-- The diagnostic placeholder returned when no extraction backend is usable. -/
def pdfPlaceholder : String :=
  "[Could not extract PDF text. Install pdftotext (poppler) or pdfplumber.]"

/-- The pdfplumber branch: keep per-page texts that are non-None and non-empty,
joined by blank lines. -/
def plumberJoin (pages : List (Option String)) : String :=
  joinBlankLines
    (pages.filterMap (fun t => t.bind (fun x => if x = "" then none else some x)))

/-- The PyPDF2 branch: per-page texts with None replaced by the empty string,
joined by blank lines. -/
def pypdfJoin (pages : List (Option String)) : String :=
  joinBlankLines (pages.map (fun t => t.getD ""))

/-- extract_text_from_pdf from scripts/fetch_paper.py: pdftotext wins when it
exits 0 with non-blank output; otherwise pdfplumber when importable (its
result is returned even when empty); otherwise PyPDF2 when importable;
otherwise the placeholder. -/
def extract_text_from_pdf (env : PdfEnv) : String :=
  match env.pdftotext with
  | some r =>
    if r.1 = 0 && hasNonWs r.2 then r.2
    else
      match env.pdfplumber with
      | some pages => plumberJoin pages
      | none =>
        match env.pypdf2 with
        | some pages => pypdfJoin pages
        | none => pdfPlaceholder
  | none =>
    match env.pdfplumber with
    | some pages => plumberJoin pages
    | none =>
      match env.pypdf2 with
      | some pages => pypdfJoin pages
      | none => pdfPlaceholder

/-! ### fetch_paper.py, fetch_arxiv_metadata and fetch_paper -/

/-- A link element of the arXiv API entry: its title and href attributes. -/
structure ArxivLink where
  title : Option String
  href : Option String
deriving DecidableEq, Repr

/-- The single entry of the arXiv API response, when present. -/
structure ArxivEntry where
  title : Option String
  summary : Option String
  authors : List String
  published : Option String
  links : List ArxivLink
deriving DecidableEq, Repr

/-- The paper record built by fetch_paper.py, modelled as a Python dict whose
keys may be absent (`none` means the key is missing from the dict). -/
structure PaperMeta where
  title : Option String := none
  authors : Option (List String) := none
  abstract : Option String := none
  year : Option String := none
  url : Option String := none
  pdf_url : Option String := none
  text : Option String := none
deriving DecidableEq, Repr

/-- fetch_arxiv_metadata from scripts/fetch_paper.py, with the parsed API
entry passed as data.  No entry yields the empty dict.  With an entry, the
PDF link is the href of the last link whose title attribute is "pdf" (the
source loop overwrites), falling back to the identifier-derived URL when that
href is absent or empty. -/
def fetch_arxiv_metadata (arxiv_id : String) (entry : Option ArxivEntry) : PaperMeta :=
  match entry with
  | none => {}
  | some e =>
    let rawPdf : Option String :=
      ((e.links.filter (fun l => l.title = some "pdf")).getLast?).bind ArxivLink.href
    let pdfUrl : String :=
      match rawPdf with
      | some h => if h ≠ "" then h else "https://arxiv.org/pdf/" ++ arxiv_id ++ ".pdf"
      | none => "https://arxiv.org/pdf/" ++ arxiv_id ++ ".pdf"
    { title := some (match e.title with
        | some t => pyReplaceNlSpace (pyStrip t)
        | none => "")
      authors := some (e.authors.map pyStrip)
      abstract := some (match e.summary with
        | some a => pyStrip a
        | none => "")
      year := some (match e.published with
        | some p => pyTake p 4
        | none => "")
      url := some ("https://arxiv.org/abs/" ++ arxiv_id)
      pdf_url := some pdfUrl
      text := none }

/-- The truncation marker appended by fetch_paper. -/
def truncMarker : String := "\n\n[... truncated at 100K chars ...]"

/-- The truncation step of fetch_paper (lines 136-139): texts longer than
100,000 characters are cut to the first 100,000 characters with the marker
appended. -/
def truncateText (text : String) : String :=
  if text.length > 100000 then pyTake text 100000 ++ truncMarker else text

/-- fetch_paper from scripts/fetch_paper.py.  The arXiv API response and the
text-extraction environment are passed as data; the PDF download itself
carries no information relevant to the returned record beyond the extraction
environment. -/
def fetch_paper (url_or_id : String) (entry : Option ArxivEntry) (env : PdfEnv) : PaperMeta :=
  let meta : PaperMeta :=
    match extract_arxiv_id url_or_id with
    | some arxiv_id => fetch_arxiv_metadata arxiv_id entry
    | none =>
      { title := some "", authors := some [], abstract := some "", year := some ""
        url := some url_or_id, pdf_url := some url_or_id, text := none }
  { meta with text := some (truncateText (extract_text_from_pdf env)) }

/-! ### find_repo.py, find_github_urls_in_text

The scanner below implements Python re.findall of
`https?://github\.com/([a-zA-Z0-9_.-]+/[a-zA-Z0-9_.-]+)`: leftmost,
non-overlapping, greedy.  The character class excludes `/`, so greedy runs
never backtrack usefully and the deterministic scan is exact. -/

/-- The character class `[a-zA-Z0-9_.-]` of the GitHub URL pattern. -/
def ghClass (c : Char) : Bool :=
  c.isAlpha || c.isDigit || c = '_' || c = '.' || c = '-'

/-- The literal tail `://github.com/` of the GitHub URL pattern. -/
def ghTail : List Char :=
  [':', '/', '/', 'g', 'i', 't', 'h', 'u', 'b', '.', 'c', 'o', 'm', '/']

/-- Attempt of the GitHub URL pattern anchored at the current position,
returning the captured `owner/repo` characters and the rest of the input. -/
def ghMatchAt (cs : List Char) : Option (List Char × List Char) :=
  match cs with
  | 'h' :: 't' :: 't' :: 'p' :: rest =>
    let after :=
      match rest with
      | 's' :: r => stripPre ghTail r
      | r => stripPre ghTail r
    match after with
    | none => none
    | some r2 =>
      let o := takeRun ghClass r2
      match o.1, o.2 with
      | [], _ => none
      | p1, '/' :: r4 =>
        let q := takeRun ghClass r4
        match q.1 with
        | [] => none
        | p2 => some (p1 ++ '/' :: p2, q.2)
      | _, _ => none
  | _ => none

/-- Python re.findall of the GitHub URL pattern: scan left to right; after a
match, continue after its end (the counter argument skips the remaining
matched characters, keeping the recursion structural). -/
def ghFindAllAux : List Char → Nat → List (List Char)
  | [], _ => []
  | _ :: cs, k + 1 => ghFindAllAux cs k
  | c :: cs, 0 =>
    match ghMatchAt (c :: cs) with
    | some p => p.1 :: ghFindAllAux cs ((c :: cs).length - p.2.length - 1)
    | none => ghFindAllAux cs 0

/-- All captures of the GitHub URL pattern, in order, non-overlapping. -/
def ghFindAll (cs : List Char) : List (List Char) := ghFindAllAux cs 0

/-- The trailing characters stripped from each captured `owner/repo`. -/
def ghBad : List Char := ['.', ',', ';', ')']

/-- The deduplication loop of find_github_urls_in_text: strip trailing
punctuation from each match, skip already-seen values, prepend the GitHub
host to the survivors, preserving first-seen order. -/
def dedupAux (seen : List String) : List String → List String
  | [] => []
  | m :: ms =>
    let m2 := pyRstripSet m ghBad
    if seen.contains m2 then dedupAux seen ms
    else ("https://github.com/" ++ m2) :: dedupAux (m2 :: seen) ms

/-- find_github_urls_in_text from scripts/find_repo.py. -/
def find_github_urls_in_text (text : String) : List String :=
  dedupAux [] ((ghFindAll text.data).map String.mk)

/-! ### find_repo.py, find_repo -/

/-- A repository candidate as emitted by find_repo.py. -/
structure RepoCandidate where
  url : String
  stars : Option Int
  description : String
  source : String
deriving DecidableEq, Repr

/-- Strategy 1 of find_repo: candidates scanned from the paper text, when a
text was supplied (Python truthiness of the text argument). -/
def textScanCandidates (text : String) : List RepoCandidate :=
  if text ≠ "" then
    (find_github_urls_in_text text).map (fun u => ⟨u, none, "", "paper_text"⟩)
  else []

/-- The accumulated list after strategies 1 and 2 of find_repo: text-scan
candidates followed by the plain-title search results (the search_github
call is passed as an oracle from query strings to result lists; a failed
search is the oracle returning the empty list, as in the source). -/
def steps12 (search : String → List RepoCandidate) (title text : String) :
    List RepoCandidate :=
  textScanCandidates text ++ (if title ≠ "" then search title else [])

/-- The surname derivation of strategy 3:
`authors.split(",")[0].strip().split()[-1]`.  `none` is the IndexError of
indexing an empty token list. -/
def surnameOfAuthors (authors : String) : Option String :=
  (pyTokens (pyStrip ((pySplitComma authors).headI))).getLast?

/-- find_repo from scripts/find_repo.py.  A `none` result is the uncaught
IndexError of the surname derivation. -/
def find_repo (search : String → List RepoCandidate) (title authors text : String) :
    Option (List RepoCandidate) :=
  let repos := steps12 search title text
  if title ≠ "" && authors ≠ "" then
    match surnameOfAuthors authors with
    | none => none
    | some surname =>
      let results := search (title ++ " " ++ surname)
      let existing := repos.map RepoCandidate.url
      some (repos ++ results.filter (fun r => !existing.contains r.url))
  else some repos

/-! ### notion_export.py

Every function of the exporter is modelled as returning the ordered list of
network requests it issues, alongside its result (`Except` carries the raised
RuntimeError).  Remote responses are passed in as data. -/

/-- The input property bag read from the properties JSON file.  `none` means
the key is absent.  The Year value is modelled after its `int` coercion. -/
structure PageProps where
  name : Option String := none
  authors : Option String := none
  year : Option Int := none
  tags : Option (List String) := none
  status : Option String := none
  url : Option String := none
  github : Option String := none
  summary : Option String := none
deriving DecidableEq, Repr

/-- A network request issued by the exporter.  Content blocks are opaque and
modelled as strings; each block is additionally wrapped with the literal
`"object": "block"` tag in the transmitted payload, which preserves count and
order.  Pagination cursors are opaque and modelled by their index. -/
inductive NReq where
  | searchDb : NReq
  | searchPage : NReq
  | createDb (parentPageId : String) : NReq
  | createPage (dbId : String) (props : PageProps) : NReq
  | appendBlocks (pageId : String) (batch : List String) : NReq
  | listChildren (pageId : String) (cursorIndex : Nat) : NReq
  | deleteBlock (blockId : String) : NReq
deriving DecidableEq, Repr

/-- get_api_key from scripts/notion_export.py.  `envKey` is the value of the
NOTION_API_KEY environment variable (`none`: unset); `keyFile` is the content
of the fallback credential file (`none`: the file does not exist).  The
source tests the environment value for truthiness, so an empty value falls
through to the file; the file content is stripped. -/
def get_api_key (envKey : Option String) (keyFile : Option String) : Except String String :=
  match envKey with
  | some k =>
    if k ≠ "" then .ok k
    else
      match keyFile with
      | some contents => .ok (pyStrip contents)
      | none => .error "No Notion API key found"
  | none =>
    match keyFile with
    | some contents => .ok (pyStrip contents)
    | none => .error "No Notion API key found"

/-- find_or_create_papers_db from scripts/notion_export.py.  `dbResults` are
the databases returned by the search endpoint, as pairs of an identifier and
the joined plain text of the title; `pageResults` are the page identifiers
returned by the page search; `newDbId` is the identifier the store would
assign to a newly created database. -/
def find_or_create_papers_db (envKey keyFile : Option String)
    (dbResults : List (String × String)) (pageResults : List String)
    (newDbId : String) : List NReq × Except String String :=
  match get_api_key envKey keyFile with
  | .error e => ([], .error e)
  | .ok _ =>
    match dbResults.find? (fun p => pyToLower (pyStrip p.2) == "papers") with
    | some p => ([.searchDb], .ok p.1)
    | none =>
      match pageResults with
      | [] => ([.searchDb, .searchPage],
          .error "No pages found in Notion workspace to create Papers database under")
      | parentId :: _ => ([.searchDb, .searchPage, .createDb parentId], .ok newDbId)

/-- The property mapping of create_page: each recognized key is transformed in
place; the summary is hard-truncated to 2000 characters.  Absent keys stay
absent. -/
def buildNotionProps (props : PageProps) : PageProps :=
  { props with summary := props.summary.map (fun s => pyTake s 2000) }

/-- Structural accumulator loop implementing the batching of create_page and
update_page; `acc` is the current batch reversed and `cap` its remaining
capacity. -/
def appendBatchesGo : List String → List String → Nat → List (List String)
  | [], acc, _ => if acc = [] then [] else [acc.reverse]
  | b :: bs, acc, 0 => acc.reverse :: appendBatchesGo bs [b] 99
  | b :: bs, acc, cap + 1 => appendBatchesGo bs (b :: acc) cap

/-- The batching loop `for i in range(0, len(blocks), 100)` with slices
`blocks[i:i+100]`; the theorem appendBatches_take_drop recovers the
slice-by-slice description of the loop. -/
def appendBatches (blocks : List String) : List (List String) :=
  appendBatchesGo blocks [] 100

/-- create_page from scripts/notion_export.py: one page-creation request
carrying the property bag, then the blocks appended in batches of 100.
`newPageId` is the identifier the store assigns to the created page. -/
def create_page (envKey keyFile : Option String) (dbId : String) (props : PageProps)
    (blocks : List String) (newPageId : String) : List NReq × Except String String :=
  match get_api_key envKey keyFile with
  | .error e => ([], .error e)
  | .ok _ =>
    (NReq.createPage dbId (buildNotionProps props) ::
      (appendBatches blocks).map (NReq.appendBlocks newPageId), .ok newPageId)

/-- The delete phase of update_page: one child-listing request per response
page, each followed by a best-effort deletion request for every listed block
(failures are swallowed in the source, so every deletion attempt appears in
the trace); pagination continues while the store reports more pages. -/
def deletePhase (pageId : String) (i : Nat) (first : List String)
    (rest : List (List String)) : List NReq :=
  (NReq.listChildren pageId i :: first.map NReq.deleteBlock) ++
    match rest with
    | [] => []
    | r :: rs => deletePhase pageId (i + 1) r rs

/-- update_page from scripts/notion_export.py: delete every existing child
block via cursor pagination, then append the new blocks in batches of 100.
`childFirst` and `childRest` are the successive pages of the child listing.
The page properties are not part of this operation. -/
def update_page (envKey keyFile : Option String) (pageId : String)
    (blocks : List String) (childFirst : List String)
    (childRest : List (List String)) : List NReq × Except String Unit :=
  match get_api_key envKey keyFile with
  | .error e => ([], .error e)
  | .ok _ =>
    (deletePhase pageId 0 childFirst childRest ++
      (appendBatches blocks).map (NReq.appendBlocks pageId), .ok ())

/-- main from scripts/notion_export.py: resolve the target database (an
explicit non-empty --db value wins, otherwise auto-discovery), then either
full-replace the given page (non-empty --update value) or create a new page.
The returned string is the reported page identifier. -/
def runMain (envKey keyFile : Option String) (db updateArg : Option String)
    (props : PageProps) (blocks : List String)
    (dbResults : List (String × String)) (pageResults : List String)
    (newDbId newPageId : String)
    (childFirst : List String) (childRest : List (List String)) :
    List NReq × Except String String :=
  let dbStep : List NReq × Except String String :=
    match db with
    | some d =>
      if d ≠ "" then ([], .ok d)
      else find_or_create_papers_db envKey keyFile dbResults pageResults newDbId
    | none => find_or_create_papers_db envKey keyFile dbResults pageResults newDbId
  match dbStep with
  | (tr, .error e) => (tr, .error e)
  | (tr, .ok dbId) =>
    match updateArg with
    | some pageId =>
      if pageId ≠ "" then
        let u := update_page envKey keyFile pageId blocks childFirst childRest
        (tr ++ u.1, u.2.map (fun _ => pageId))
      else
        let c := create_page envKey keyFile dbId props blocks newPageId
        (tr ++ c.1, c.2)
    | none =>
      let c := create_page envKey keyFile dbId props blocks newPageId
      (tr ++ c.1, c.2)

/-- The batches transmitted by the append requests of a trace, in request
order. -/
def batchesIn (reqs : List NReq) : List (List String) :=
  reqs.filterMap (fun r =>
    match r with
    | .appendBlocks _ b => some b
    | _ => none)

/-- Whether a request transmits the page property bag. -/
def carriesPageProps : NReq → Bool
  | .createPage _ _ => true
  | _ => false

/-! ### Specification-side definitions used to state the claims -/

/-- Condition under which the command-line extraction backend determines the
result of extract_text_from_pdf: it ran and exited 0 with non-blank output. -/
def cmdToolWins (env : PdfEnv) : Option String :=
  match env.pdftotext with
  | some r => if r.1 = 0 && hasNonWs r.2 then some r.2 else none
  | none => none

/-- The specified shape of a valid arXiv identifier: four digits, a dot, four
or five digits, and an optional version suffix of a letter v followed by at
least one digit. -/
def specValidId (s : String) : Prop :=
  ∃ a b v : List Char,
    s.data = a ++ '.' :: (b ++ v) ∧
    a.length = 4 ∧ (∀ c ∈ a, c.isDigit = true) ∧
    (b.length = 4 ∨ b.length = 5) ∧ (∀ c ∈ b, c.isDigit = true) ∧
    (v = [] ∨ ∃ ds : List Char, ds ≠ [] ∧ (∀ c ∈ ds, c.isDigit = true) ∧ v = 'v' :: ds)

/-- Whether a string is rooted at the arXiv host, with or without a scheme:
the specification's notion of an arXiv URL. -/
def specIsArxivUrlHost (s : String) : Bool :=
  (stripPre "https://arxiv.org/".data s.data).isSome ||
    (stripPre "http://arxiv.org/".data s.data).isSome ||
    (stripPre "arxiv.org/".data s.data).isSome

/-! ### Helper lemmas -/

/-- The slice-by-slice description of the batching loop: appendBatchesGo with
an invariant-respecting state takes the next 100 elements of the combined
input as the next batch. -/
theorem appendBatchesGo_take_drop (l : List String) : ∀ (acc : List String) (n : Nat),
    n + acc.length = 100 →
    appendBatchesGo l acc n =
      if acc.reverse ++ l = [] then []
      else (acc.reverse ++ l).take 100 :: appendBatches ((acc.reverse ++ l).drop 100) := by
  induction l with
  | nil =>
    intro acc n hinv
    by_cases ha : acc = []
    · subst ha
      simp [appendBatchesGo]
    · have hlen : acc.reverse.length ≤ 100 := by
        rw [List.length_reverse]
        omega
      have hne : acc.reverse ≠ [] := by
        simp [ha]
      rw [appendBatchesGo]
      rw [if_neg ha, List.append_nil, if_neg hne, List.take_of_length_le hlen,
        List.drop_eq_nil_of_le hlen]
      rfl
  | cons b bs ih =>
    intro acc n hinv
    match n with
    | 0 =>
      have hacc : acc.reverse.length = 100 := by
        rw [List.length_reverse]
        omega
      have hne : acc.reverse ++ b :: bs ≠ [] := by
        simp
      rw [appendBatchesGo, if_neg hne]
      rw [← hacc, List.take_left, List.drop_left]
      rfl
    | m + 1 =>
      have hinv2 : m + (b :: acc).length = 100 := by
        simp only [List.length_cons]
        omega
      have heq : (b :: acc).reverse ++ bs = acc.reverse ++ b :: bs := by
        simp
      rw [appendBatchesGo, ih (b :: acc) m hinv2, heq]

/-- Unfolding equation of appendBatches on the empty list. -/
theorem appendBatches_nil : appendBatches [] = [] := rfl

/-- appendBatches agrees with the slicing loop of the source:
the first batch is `blocks[0:100]`, the remainder is batched recursively. -/
theorem appendBatches_take_drop (blocks : List String) :
    appendBatches blocks =
      if blocks = [] then [] else blocks.take 100 :: appendBatches (blocks.drop 100) := by
  have h := appendBatchesGo_take_drop blocks [] 100 (by simp)
  simpa [appendBatches] using h

/-- Unfolding equation of appendBatches on a non-empty list. -/
theorem appendBatches_cons (blocks : List String) (h : blocks ≠ []) :
    appendBatches blocks = blocks.take 100 :: appendBatches (blocks.drop 100) := by
  rw [appendBatches_take_drop, if_neg h]

/-- Concatenating the batches recovers the original block list. -/
theorem appendBatches_join (blocks : List String) : (appendBatches blocks).join = blocks := by
  have key : ∀ n (l : List String), l.length ≤ n → (appendBatches l).join = l := by
    intro n
    induction n with
    | zero =>
      intro l h
      have hl : l = [] := List.eq_nil_of_length_eq_zero (Nat.le_zero.1 h)
      subst hl
      simp [appendBatches_nil]
    | succ n ih =>
      intro l h
      by_cases hl : l = []
      · subst hl
        simp [appendBatches_nil]
      · rw [appendBatches_cons l hl]
        have hdrop : (l.drop 100).length ≤ n := by
          rw [List.length_drop]
          have : 0 < l.length := List.length_pos.2 hl
          omega
        simp [ih (l.drop 100) hdrop, List.take_append_drop]
  exact key blocks.length blocks le_rfl

/-- The number of batches is the length of the block list divided by 100,
rounded up. -/
theorem appendBatches_length (blocks : List String) :
    (appendBatches blocks).length = (blocks.length + 99) / 100 := by
  have key : ∀ n (l : List String), l.length ≤ n →
      (appendBatches l).length = (l.length + 99) / 100 := by
    intro n
    induction n with
    | zero =>
      intro l h
      have hl : l = [] := List.eq_nil_of_length_eq_zero (Nat.le_zero.1 h)
      subst hl
      simp [appendBatches_nil]
    | succ n ih =>
      intro l h
      by_cases hl : l = []
      · subst hl
        simp [appendBatches_nil]
      · rw [appendBatches_cons l hl]
        have hpos : 0 < l.length := List.length_pos.2 hl
        have hdrop : (l.drop 100).length ≤ n := by
          rw [List.length_drop]
          omega
        rw [List.length_cons, ih (l.drop 100) hdrop, List.length_drop]
        omega
  exact key blocks.length blocks le_rfl

/-- batchesIn distributes over trace concatenation. -/
theorem batchesIn_append (a b : List NReq) : batchesIn (a ++ b) = batchesIn a ++ batchesIn b :=
  List.filterMap_append a b _

/-- The batches of a pure append-requests trace are the batches themselves. -/
theorem batchesIn_appendReqs (pageId : String) (bs : List (List String)) :
    batchesIn (bs.map (NReq.appendBlocks pageId)) = bs := by
  unfold batchesIn
  rw [List.filterMap_map]
  exact List.filterMap_some bs

/-- The delete phase of update_page issues no append request. -/
theorem batchesIn_deletePhase (pageId : String) (i : Nat) (first : List String)
    (rest : List (List String)) : batchesIn (deletePhase pageId i first rest) = [] := by
  induction rest generalizing i first with
  | nil =>
    unfold deletePhase batchesIn
    simp [List.filterMap_map]
  | cons r rs ih =>
    unfold deletePhase
    rw [batchesIn_append]
    rw [ih]
    unfold batchesIn
    simp [List.filterMap_map]

/-! ### Claim C5: text truncation -/

/-- Claim C5: for every extracted text longer than 100,000 characters the
output is exactly the first 100,000 characters followed by the truncation
marker; for text of at most 100,000 characters the output is the input
unchanged, and re-applying the truncation to such output is the identity. -/
theorem C5_truncation (t : String) :
    (100000 < t.length → truncateText t = pyTake t 100000 ++ truncMarker) ∧
    (t.length ≤ 100000 →
      truncateText t = t ∧ truncateText (truncateText t) = truncateText t) := by
  constructor
  · intro h
    unfold truncateText
    rw [if_pos h]
  · intro h
    have h1 : truncateText t = t := by
      unfold truncateText
      rw [if_neg (by omega)]
    exact ⟨h1, by rw [h1, h1]⟩

/-- Witness for C5 at a 100,001-character text and at a short text. -/
theorem C5_truncation_witness :
    (100000 < (String.mk (List.replicate 100001 'a')).length ∧
      truncateText (String.mk (List.replicate 100001 'a')) =
        pyTake (String.mk (List.replicate 100001 'a')) 100000 ++ truncMarker) ∧
    (("abc" : String).length ≤ 100000 ∧ truncateText "abc" = "abc") := by
  have hlen : (String.mk (List.replicate 100001 'a')).length = 100001 := by
    show (List.replicate 100001 'a').length = 100001
    rw [List.length_replicate]
  have hbig : 100000 < (String.mk (List.replicate 100001 'a')).length := by
    rw [hlen]
    norm_num
  have hsmall : ("abc" : String).length ≤ 100000 := by decide
  exact ⟨⟨hbig, (C5_truncation _).1 hbig⟩, hsmall, ((C5_truncation "abc").2 hsmall).1⟩

/-! ### Claim C7: block batching -/

/-- Claim C7: for every list of blocks appended to a page, by create_page or
by update_page, the append requests of the issued trace carry ceil(N/100)
batches whose concatenation, in request order, is the original block list. -/
theorem C7_block_batching (envKey keyFile : Option String) (k : String)
    (h : get_api_key envKey keyFile = .ok k) (dbId : String) (props : PageProps)
    (blocks : List String) (newPageId pageId : String) (childFirst : List String)
    (childRest : List (List String)) :
    (batchesIn (create_page envKey keyFile dbId props blocks newPageId).1).join = blocks ∧
    (batchesIn (create_page envKey keyFile dbId props blocks newPageId).1).length =
      (blocks.length + 99) / 100 ∧
    (batchesIn (update_page envKey keyFile pageId blocks childFirst childRest).1).join =
      blocks ∧
    (batchesIn (update_page envKey keyFile pageId blocks childFirst childRest).1).length =
      (blocks.length + 99) / 100 := by
  have hc : (create_page envKey keyFile dbId props blocks newPageId).1 =
      NReq.createPage dbId (buildNotionProps props) ::
        (appendBatches blocks).map (NReq.appendBlocks newPageId) := by
    unfold create_page
    rw [h]
  have hu : (update_page envKey keyFile pageId blocks childFirst childRest).1 =
      deletePhase pageId 0 childFirst childRest ++
        (appendBatches blocks).map (NReq.appendBlocks pageId) := by
    unfold update_page
    rw [h]
  have hcb : batchesIn (create_page envKey keyFile dbId props blocks newPageId).1 =
      appendBatches blocks := by
    rw [hc]
    show batchesIn (NReq.createPage dbId (buildNotionProps props) ::
      (appendBatches blocks).map (NReq.appendBlocks newPageId)) = _
    unfold batchesIn
    rw [List.filterMap_cons]
    simp only []
    rw [List.filterMap_map]
    exact List.filterMap_some _
  have hub : batchesIn (update_page envKey keyFile pageId blocks childFirst childRest).1 =
      appendBatches blocks := by
    rw [hu, batchesIn_append, batchesIn_deletePhase, batchesIn_appendReqs]
    simp
  refine ⟨?_, ?_, ?_, ?_⟩
  · rw [hcb, appendBatches_join]
  · rw [hcb, appendBatches_length]
  · rw [hub, appendBatches_join]
  · rw [hub, appendBatches_length]

/-- Witness for C7 on a concrete credential and a three-block body. -/
theorem C7_block_batching_witness :
    get_api_key (some "k") none = .ok "k" ∧
    (batchesIn (create_page (some "k") none "db" {} ["b1", "b2", "b3"] "pg").1).join =
      ["b1", "b2", "b3"] ∧
    (batchesIn (update_page (some "k") none "pg" ["b1", "b2", "b3"] ["c1"] []).1).length =
      1 := by
  have h : get_api_key (some "k") none = .ok "k" := rfl
  obtain ⟨j1, l1, j2, l2⟩ :=
    C7_block_batching (some "k") none "k" h "db" {} ["b1", "b2", "b3"] "pg" "pg" ["c1"] []
  refine ⟨h, j1, ?_⟩
  rw [l2]
  decide

/-! ### Claim C9: credential resolution -/

/-- Counterexample to C9 as stated: with the environment variable set (to the
empty string) and the credential file present, resolution returns the file
value, not the variable's value, so the file is consulted although the
variable is not absent. -/
theorem C9_counterexample :
    get_api_key (some "") (some "filekey") = .ok "filekey" ∧
    get_api_key (some "") (some "filekey") ≠ .ok "" := by
  constructor
  · decide
  · decide

/-- Claim C9 as amended: resolution returns the environment variable's value
whenever it is set to a non-empty string; when neither a non-empty variable
nor the credential file is present, every exporter operation returns the
credential-missing error with an empty request trace, before any network
call. -/
theorem C9_credentials (envKey keyFile : Option String) :
    (∀ k, envKey = some k → k ≠ "" → get_api_key envKey keyFile = .ok k) ∧
    ((envKey = none ∨ envKey = some "") → keyFile = none →
      get_api_key envKey keyFile = .error "No Notion API key found" ∧
      (∀ dbResults pageResults newDbId,
        find_or_create_papers_db envKey keyFile dbResults pageResults newDbId =
          ([], .error "No Notion API key found")) ∧
      (∀ dbId props blocks newPageId,
        create_page envKey keyFile dbId props blocks newPageId =
          ([], .error "No Notion API key found")) ∧
      (∀ pageId blocks childFirst childRest,
        update_page envKey keyFile pageId blocks childFirst childRest =
          ([], .error "No Notion API key found"))) := by
  constructor
  · intro k hk hne
    subst hk
    simp [get_api_key, hne]
  · intro henv hfile
    subst hfile
    have hkey : get_api_key envKey none = .error "No Notion API key found" := by
      rcases henv with h | h <;> subst h <;> rfl
    refine ⟨hkey, ?_, ?_, ?_⟩
    · intro dbResults pageResults newDbId
      unfold find_or_create_papers_db
      rw [hkey]
    · intro dbId props blocks newPageId
      unfold create_page
      rw [hkey]
    · intro pageId blocks childFirst childRest
      unfold update_page
      rw [hkey]

/-- Witness for C9 at concrete credential states. -/
theorem C9_credentials_witness :
    get_api_key (some "x") (some "f") = .ok "x" ∧
    get_api_key none none = .error "No Notion API key found" ∧
    find_or_create_papers_db none none [] [] "d" =
      ([], .error "No Notion API key found") ∧
    create_page none none "db" {} [] "p" = ([], .error "No Notion API key found") ∧
    update_page none none "p" [] [] [] = ([], .error "No Notion API key found") := by
  obtain ⟨h1, -⟩ := C9_credentials (some "x") (some "f")
  obtain ⟨-, g2⟩ := C9_credentials none none
  have hg := g2 (Or.inl rfl) rfl
  exact ⟨h1 "x" rfl (by decide), hg.1, hg.2.1 [] [] "d", hg.2.2.1 "db" {} [] "p",
    hg.2.2.2 "p" [] [] []⟩

/-! ### Claim C3: update mode and the property bag -/

/-! ### Claim C3: update mode and the property bag -/

/-- Counterexample to C3: an update-mode invocation with a non-empty property
bag issues a non-empty request trace in which no request carries the property
bag, so the full-replace operation does not transmit the page's structured
properties. -/
theorem C3_counterexample :
    ((runMain (some "k") none (some "db1") (some "p1") { name := some "My Paper" }
        ["b1", "b2"] [] [] "ndb" "npg" ["x1"] []).1.all
      (fun r => !carriesPageProps r)) = true ∧
    (runMain (some "k") none (some "db1") (some "p1") { name := some "My Paper" }
        ["b1", "b2"] [] [] "ndb" "npg" ["x1"] []).1 ≠ [] := by
  constructor
  · decide
  · decide

/-- Claim C3 as amended: in update mode the exporter replaces only the body
blocks; no request of the issued trace carries the page property bag. -/
theorem C3_update_no_props (envKey keyFile : Option String) (db : Option String)
    (pageId : String) (hpid : pageId ≠ "") (props : PageProps) (blocks : List String)
    (dbResults : List (String × String)) (pageResults : List String)
    (newDbId newPageId : String) (childFirst : List String)
    (childRest : List (List String)) :
    ∀ r ∈ (runMain envKey keyFile db (some pageId) props blocks dbResults pageResults
        newDbId newPageId childFirst childRest).1, carriesPageProps r = false := by
  have hfind : ∀ x ∈ (find_or_create_papers_db envKey keyFile dbResults pageResults
      newDbId).1, carriesPageProps x = false := by
    intro x hx
    unfold find_or_create_papers_db at hx
    split at hx
    · simp at hx
    · split at hx
      · simp at hx
        subst hx
        rfl
      · split at hx
        · simp at hx
          rcases hx with rfl | rfl <;> rfl
        · simp at hx
          rcases hx with rfl | rfl | rfl <;> rfl
  have hdel : ∀ rest i first, ∀ x ∈ deletePhase pageId i first rest,
      carriesPageProps x = false := by
    intro rest
    induction rest with
    | nil =>
      intro i first x hx
      unfold deletePhase at hx
      simp at hx
      rcases hx with rfl | ⟨b, -, rfl⟩ <;> rfl
    | cons q qs ih =>
      intro i first x hx
      unfold deletePhase at hx
      rw [List.mem_append] at hx
      rcases hx with hx | hx
      · simp at hx
        rcases hx with rfl | ⟨b, -, rfl⟩ <;> rfl
      · exact ih (i + 1) q x hx
  have hupd : ∀ x ∈ (update_page envKey keyFile pageId blocks childFirst childRest).1,
      carriesPageProps x = false := by
    intro x hx
    unfold update_page at hx
    split at hx
    · simp at hx
    · rw [List.mem_append] at hx
      rcases hx with hx | hx
      · exact hdel childRest 0 childFirst x hx
      · simp at hx
        obtain ⟨b, -, rfl⟩ := hx
        rfl
  have main : ∀ trF (resF : Except String String),
      (∀ x ∈ trF, carriesPageProps x = false) →
      ∀ r ∈ (match (trF, resF) with
        | (tr, Except.error e) => (tr, Except.error e)
        | (tr, Except.ok dbId) =>
          if pageId ≠ "" then
            let u := update_page envKey keyFile pageId blocks childFirst childRest
            (tr ++ u.1, u.2.map (fun _ => pageId))
          else
            let c := create_page envKey keyFile dbId props blocks newPageId
            (tr ++ c.1, c.2) : List NReq × Except String String).1,
        carriesPageProps r = false := by
    intro trF resF htr r hr
    rcases resF with e | dbId
    · simp only [] at hr
      exact htr r hr
    · simp only [if_pos hpid] at hr
      rw [List.mem_append] at hr
      rcases hr with hr | hr
      · exact htr r hr
      · exact hupd r hr
  intro r hr
  unfold runMain at hr
  rcases db with _ | d
  · simp only [] at hr
    rcases hF : find_or_create_papers_db envKey keyFile dbResults pageResults newDbId
      with ⟨trF, resF⟩
    rw [hF] at hr
    have htr : ∀ x ∈ trF, carriesPageProps x = false := by
      intro x hx
      apply hfind
      rw [hF]
      exact hx
    exact main trF resF htr r hr
  · by_cases hd : d = ""
    · subst hd
      simp only [ne_eq, not_true_eq_false, if_false, reduceIte] at hr
      rcases hF : find_or_create_papers_db envKey keyFile dbResults pageResults newDbId
        with ⟨trF, resF⟩
      rw [hF] at hr
      have htr : ∀ x ∈ trF, carriesPageProps x = false := by
        intro x hx
        apply hfind
        rw [hF]
        exact hx
      exact main trF resF htr r hr
    · simp only [ne_eq, hd, not_false_iff, if_true] at hr
      exact main [] (Except.ok d) (by intro x hx; simp at hx) r hr

/-- Witness for C3 at a concrete update-mode invocation and a concrete issued
request. -/
theorem C3_update_no_props_witness :
    ("p1" : String) ≠ "" ∧ carriesPageProps (NReq.listChildren "p1" 0) = false := by
  have h : ("p1" : String) ≠ "" := by decide
  exact ⟨h, C3_update_no_props (some "k") none (some "db1") "p1" h
    { name := some "N" } ["b"] [] [] "nd" "np" ["x1"] [] (NReq.listChildren "p1" 0)
    (by decide)⟩

/-! ### Claim C1: three-tier extraction fallback -/

/-- Counterexample to C1: with the command-line tool unavailable, the first
library importable but yielding no text on any page, and the second library
importable and yielding non-empty text, the result is the empty string: it is
neither the first non-empty backend result nor the placeholder, so an
available backend that yields empty text does determine the result. -/
theorem C1_counterexample :
    extract_text_from_pdf ⟨none, some [none], some [some "hello"]⟩ = "" ∧
    extract_text_from_pdf ⟨none, none, some [some "hello"]⟩ = "hello" ∧
    pdfPlaceholder ≠ "" ∧ ("hello" : String) ≠ "" := by
  refine ⟨by decide, by decide, by decide, by decide⟩

/-- Claim C1 as amended: the non-empty-result rule applies only to the
command-line backend; otherwise the first importable library determines the
result with its possibly empty page concatenation, and the placeholder is
returned exactly when the command-line tool does not win and neither library
is importable. -/
theorem C1_extraction_fallback (env : PdfEnv) :
    (∀ out, cmdToolWins env = some out → extract_text_from_pdf env = out) ∧
    (cmdToolWins env = none → ∀ pages, env.pdfplumber = some pages →
      extract_text_from_pdf env = plumberJoin pages) ∧
    (cmdToolWins env = none → env.pdfplumber = none →
      ∀ pages, env.pypdf2 = some pages → extract_text_from_pdf env = pypdfJoin pages) ∧
    (cmdToolWins env = none → env.pdfplumber = none → env.pypdf2 = none →
      extract_text_from_pdf env = pdfPlaceholder) := by
  obtain ⟨pt, pl, py⟩ := env
  have hFail : ∀ r : Int × String,
      cmdToolWins ⟨some r, pl, py⟩ = none → (r.1 = 0 && hasNonWs r.2) = false := by
    intro r hn
    cases h2 : (r.1 = 0 && hasNonWs r.2)
    · rfl
    · exfalso
      simp [cmdToolWins, h2] at hn
  refine ⟨?_, ?_, ?_, ?_⟩
  · intro out hout
    rcases pt with _ | r
    · simp [cmdToolWins] at hout
    · cases hwin : (r.1 = 0 && hasNonWs r.2)
      · simp [cmdToolWins, hwin] at hout
      · simp [cmdToolWins, hwin] at hout
        have hext : extract_text_from_pdf ⟨some r, pl, py⟩ = r.2 := by
          simp only [extract_text_from_pdf]
          rw [hwin]
          simp
        rw [hext, hout]
  · intro hn pages hp
    simp only at hp
    subst hp
    rcases pt with _ | r
    · rfl
    · simp [extract_text_from_pdf, hFail r hn]
  · intro hn hp pages hq
    simp only at hp hq
    subst hp
    subst hq
    rcases pt with _ | r
    · rfl
    · simp [extract_text_from_pdf, hFail r hn]
  · intro hn hp hq
    simp only at hp hq
    subst hp
    subst hq
    rcases pt with _ | r
    · rfl
    · simp [extract_text_from_pdf, hFail r hn]

/-- Witness for C1 instantiating every tier at a concrete environment. -/
theorem C1_extraction_fallback_witness :
    (cmdToolWins ⟨some (0, "ok"), none, none⟩ = some "ok" ∧
      extract_text_from_pdf ⟨some (0, "ok"), none, none⟩ = "ok") ∧
    (cmdToolWins ⟨some (1, "x"), some [some "p"], none⟩ = none ∧
      extract_text_from_pdf ⟨some (1, "x"), some [some "p"], none⟩ =
        plumberJoin [some "p"]) ∧
    (cmdToolWins ⟨none, none, some [some "q"]⟩ = none ∧
      extract_text_from_pdf ⟨none, none, some [some "q"]⟩ = pypdfJoin [some "q"]) ∧
    (cmdToolWins ⟨none, none, none⟩ = none ∧
      extract_text_from_pdf ⟨none, none, none⟩ = pdfPlaceholder) := by
  refine ⟨⟨by decide, (C1_extraction_fallback _).1 "ok" (by decide)⟩,
    ⟨by decide, (C1_extraction_fallback _).2.1 (by decide) [some "p"] rfl⟩,
    ⟨by decide, (C1_extraction_fallback _).2.2.1 (by decide) rfl [some "q"] rfl⟩,
    ⟨by decide, (C1_extraction_fallback _).2.2.2 (by decide) rfl rfl⟩⟩

/-! ### Claim C2: record fields when the metadata API returns no entry -/

/-- Claim C2, evaluated at the failing input: for an input whose identifier is
extracted, when the API response has no entry the returned record carries no
url and no pdf_url key at all (only the text key is present), contradicting
the claim that the identifier-derived URLs are still populated. -/
theorem C2_missing_urls :
    extract_arxiv_id "2501.01243" = some "2501.01243" ∧
    (fetch_paper "2501.01243" none ⟨none, none, none⟩).url = none ∧
    (fetch_paper "2501.01243" none ⟨none, none, none⟩).pdf_url = none ∧
    (fetch_paper "2501.01243" none ⟨none, none, none⟩).title = none ∧
    (fetch_paper "2501.01243" none ⟨none, none, none⟩).text ≠ none := by
  refine ⟨by decide, by decide, by decide, by decide, by decide⟩

/-! ### Claim C10: surname derivation IndexError -/

/-- Claim C10: with a non-empty title and a non-empty authors string whose
first comma-separated segment has no whitespace-separated token, the surname
derivation fails with an uncaught IndexError and find_repo terminates without
returning a candidate list. -/
theorem C10_surname_index_error (search : String → List RepoCandidate)
    (title authors text : String) (ht : title ≠ "") (ha : authors ≠ "")
    (hsn : pyTokens (pyStrip ((pySplitComma authors).headI)) = []) :
    find_repo search title authors text = none := by
  have hnone : surnameOfAuthors authors = none := by
    unfold surnameOfAuthors
    rw [hsn]
    rfl
  unfold find_repo
  simp [ht, ha, hnone]

/-- Witness for C10 at the authors string of a single comma. -/
theorem C10_surname_index_error_witness :
    ("T" : String) ≠ "" ∧ ("," : String) ≠ "" ∧
    pyTokens (pyStrip ((pySplitComma ",").headI)) = [] ∧
    find_repo (fun _ => []) "T" "," "" = none := by
  refine ⟨by decide, by decide, by decide,
    C10_surname_index_error (fun _ => []) "T" "," "" (by decide) (by decide) (by decide)⟩

/-! ### Claim C8: GitHub URL extraction -/

/-- The head of a dropWhile result does not satisfy the dropped predicate. -/
theorem head_dropWhile_not {α} (p : α → Bool) (l : List α) (c : α)
    (h : (l.dropWhile p).head? = some c) : p c = false := by
  induction l with
  | nil => simp [List.dropWhile] at h
  | cons x xs ih =>
    by_cases hx : p x = true
    · rw [List.dropWhile_cons, if_pos hx] at h
      exact ih h
    · rw [List.dropWhile_cons, if_neg hx] at h
      simp at h
      subst h
      cases hpx : p x
      · rfl
      · exact absurd hpx hx

/-- The last character of a right-stripped string is never in the stripped
set. -/
theorem pyRstripSet_getLast (s : String) (bad : List Char) (c : Char)
    (h : (pyRstripSet s bad).data.getLast? = some c) : bad.contains c = false := by
  unfold pyRstripSet at h
  rw [show (String.mk ((s.data.reverse.dropWhile (fun c => bad.contains c)).reverse)).data
      = (s.data.reverse.dropWhile (fun c => bad.contains c)).reverse from rfl] at h
  rw [List.getLast?_reverse] at h
  exact head_dropWhile_not _ _ c h

/-- Every URL produced by the deduplication loop ends with a character not in
the stripped punctuation set. -/
theorem dedupAux_getLast : ∀ (ms seen : List String) (u : String), u ∈ dedupAux seen ms →
    ∀ c, u.data.getLast? = some c → c ∉ ghBad := by
  intro ms
  induction ms with
  | nil =>
    intro seen u hu
    simp [dedupAux] at hu
  | cons m ms ih =>
    intro seen u hu c hc
    unfold dedupAux at hu
    by_cases hseen : seen.contains (pyRstripSet m ghBad) = true
    · rw [if_pos hseen] at hu
      exact ih seen u hu c hc
    · rw [if_neg hseen] at hu
      rcases List.mem_cons.1 hu with rfl | htail
      · -- u is the freshly appended URL
        rw [String.data_append, List.getLast?_append] at hc
        rcases hm2 : (pyRstripSet m ghBad).data.getLast? with _ | d
        · rw [hm2] at hc
          simp at hc
          have hcc : c = '/' := hc.symm
          subst hcc
          decide
        · rw [hm2] at hc
          simp at hc
          subst hc
          have hlast := pyRstripSet_getLast m ghBad d hm2
          intro hmem
          have h3 : List.elem d ghBad = false := hlast
          rw [List.elem_iff.2 hmem] at h3
          cases h3
      · exact ih _ u htail c hc

/-- Claim C8: repository URL extraction is deterministic (running it twice on
the same text yields the same ordered deduplicated list) and no extracted URL
ends with a trailing dot, comma, semicolon or closing parenthesis. -/
theorem C8_github_url_extraction (t : String) :
    find_github_urls_in_text t = find_github_urls_in_text t ∧
    ∀ u ∈ find_github_urls_in_text t, ∀ c, u.data.getLast? = some c → c ∉ ghBad := by
  refine ⟨rfl, ?_⟩
  intro u hu c hc
  exact dedupAux_getLast _ [] u hu c hc

/-- Witness for C8 on a text with a trailing period after the URL. -/
theorem C8_github_url_extraction_witness :
    "https://github.com/a/b" ∈ find_github_urls_in_text "see https://github.com/a/b." ∧
    'b' ∉ ghBad := by
  have hmem : "https://github.com/a/b" ∈
      find_github_urls_in_text "see https://github.com/a/b." := by decide
  exact ⟨hmem, (C8_github_url_extraction _).2 _ hmem 'b' (by decide)⟩

/-! ### Claim C6: candidate deduplication across finder steps -/

/-- Claim C6: the portion of the result list appended by the title+author
step never carries a URL already present among the candidates of the text-scan
and plain-title steps, whereas the plain-title step may duplicate a URL of the
text-scan step (witnessed by a concrete run with both duplicates present). -/
theorem C6_dedup :
    (∀ (search : String → List RepoCandidate) (title authors text : String)
        (res : List RepoCandidate),
      find_repo search title authors text = some res →
      res.take (steps12 search title text).length = steps12 search title text ∧
      ∀ r ∈ res.drop (steps12 search title text).length,
        r.url ∉ (steps12 search title text).map RepoCandidate.url) ∧
    (∃ res, find_repo
        (fun _ => [⟨"https://github.com/a/b", some 5, "", "github_search"⟩])
        "T" "" "see https://github.com/a/b" = some res ∧
      (res.map RepoCandidate.url).count "https://github.com/a/b" = 2) := by
  constructor
  · intro search title authors text res h
    unfold find_repo at h
    split at h
    · -- title and authors both non-empty
      rcases hsn : surnameOfAuthors authors with _ | sn
      · rw [hsn] at h
        cases h
      · rw [hsn] at h
        have hres : res = steps12 search title text ++
            (search (title ++ " " ++ sn)).filter
              (fun r => !((steps12 search title text).map RepoCandidate.url).contains
                r.url) := by
          have h2 := Option.some.inj h
          rw [← h2]
        subst hres
        refine ⟨List.take_left _ _, ?_⟩
        intro r hr
        rw [List.drop_left] at hr
        have hpred := (List.mem_filter.1 hr).2
        intro hmem
        rw [Bool.not_eq_true', ← Bool.not_eq_true] at hpred
        exact hpred (List.elem_iff.2 hmem)
    · -- fewer inputs: the result is exactly the first two steps
      have hres : res = steps12 search title text := by
        have h2 := Option.some.inj h
        rw [← h2]
      subst hres
      refine ⟨List.take_length _, ?_⟩
      intro r hr
      rw [List.drop_length] at hr
      cases hr
  · refine ⟨[⟨"https://github.com/a/b", none, "", "paper_text"⟩,
      ⟨"https://github.com/a/b", some 5, "", "github_search"⟩], by decide, by decide⟩

/-- Witness for C6: a concrete run in which the title+author step appends a
candidate whose URL is not among the earlier steps. -/
theorem C6_dedup_witness :
    find_repo
      (fun q => if q = "T Roe"
        then [⟨"https://github.com/x/y", some 1, "", "github_search"⟩,
              ⟨"https://github.com/n/n", some 2, "", "github_search"⟩]
        else [⟨"https://github.com/x/y", some 1, "", "github_search"⟩])
      "T" "Jane Roe" "" =
      some [⟨"https://github.com/x/y", some 1, "", "github_search"⟩,
            ⟨"https://github.com/n/n", some 2, "", "github_search"⟩] ∧
    RepoCandidate.url ⟨"https://github.com/n/n", some 2, "", "github_search"⟩ ∉
      (steps12
        (fun q => if q = "T Roe"
          then [⟨"https://github.com/x/y", some 1, "", "github_search"⟩,
                ⟨"https://github.com/n/n", some 2, "", "github_search"⟩]
          else [⟨"https://github.com/x/y", some 1, "", "github_search"⟩])
        "T" "").map RepoCandidate.url := by
  obtain ⟨-, hdrop⟩ := C6_dedup.1
    (fun q => if q = "T Roe"
      then [⟨"https://github.com/x/y", some 1, "", "github_search"⟩,
            ⟨"https://github.com/n/n", some 2, "", "github_search"⟩]
      else [⟨"https://github.com/x/y", some 1, "", "github_search"⟩])
    "T" "Jane Roe" ""
    [⟨"https://github.com/x/y", some 1, "", "github_search"⟩,
     ⟨"https://github.com/n/n", some 2, "", "github_search"⟩] (by decide)
  exact ⟨by decide, hdrop ⟨"https://github.com/n/n", some 2, "", "github_search"⟩
    (by decide)⟩

/-! ### Claim C4: identifier extraction -/

/-- A greedy run over a list all of whose elements satisfy the predicate
consumes everything. -/
theorem takeRun_all (p : Char → Bool) : ∀ l : List Char,
    (∀ c ∈ l, p c = true) → takeRun p l = (l, []) := by
  intro l
  induction l with
  | nil => intro h; rfl
  | cons c cs ih =>
    intro h
    have hc := h c (by simp)
    simp [takeRun, hc, ih (fun x hx => h x (List.mem_cons_of_mem _ hx))]

/-- A greedy run stops exactly at the first failing element. -/
theorem takeRun_append_stop (p : Char → Bool) : ∀ (l : List Char) (c : Char) (r : List Char),
    (∀ x ∈ l, p x = true) → p c = false → takeRun p (l ++ c :: r) = (l, c :: r) := by
  intro l
  induction l with
  | nil =>
    intro c r _ hc
    simp [takeRun, hc]
  | cons x xs ih =>
    intro c r h hc
    have hx := h x (by simp)
    simp [takeRun, hx, ih c r (fun y hy => h y (by simp [hy])) hc]

/-- The version matcher consumes nothing when the head is not the letter v. -/
theorem takeVer_not_v (c : Char) (cs : List Char) (hc : c ≠ 'v') :
    takeVer (c :: cs) = ([], c :: cs) := by
  cases cs with
  | nil => rfl
  | cons c2 rest =>
    have hb : (c == 'v') = false := by
      rw [beq_eq_false_iff_ne]
      exact hc
    simp [takeVer, hb]

/-- The version matcher consumes the letter v and the following digit run. -/
theorem takeVer_v (d : Char) (ds post : List Char) (hd : d.isDigit = true)
    (hds : ∀ c ∈ ds, c.isDigit = true)
    (hpost : post = [] ∨ ∃ c cs, post = c :: cs ∧ c.isDigit = false ∧ c ≠ 'v') :
    takeVer ('v' :: d :: (ds ++ post)) = ('v' :: d :: ds, post) := by
  have hrun : takeRun Char.isDigit (d :: (ds ++ post)) = (d :: ds, post) := by
    have hall : ∀ x ∈ d :: ds, x.isDigit = true := by
      intro x hx
      rcases List.mem_cons.1 hx with rfl | hx
      · exact hd
      · exact hds x hx
    rcases hpost with rfl | ⟨c, cs, rfl, hcd, -⟩
    · rw [List.append_nil]
      exact takeRun_all _ _ hall
    · exact takeRun_append_stop _ (d :: ds) c cs hall hcd
  simp [takeVer, hd, hrun]

/-- matchIdAfterDot accepts exactly the specified digit-run plus optional
version shape, leaving a non-extending continuation untouched. -/
theorem matchIdAfterDot_spec (b v post : List Char)
    (hb : ∀ c ∈ b, c.isDigit = true) (hlen : b.length = 4 ∨ b.length = 5)
    (hv : v = [] ∨ ∃ ds, ds ≠ [] ∧ (∀ c ∈ ds, c.isDigit = true) ∧ v = 'v' :: ds)
    (hpost : post = [] ∨ ∃ c cs, post = c :: cs ∧ c.isDigit = false ∧ c ≠ 'v') :
    matchIdAfterDot (b ++ v ++ post) = some (b ++ v, post) := by
  have hble : b.length ≤ 5 := by rcases hlen with h | h <;> omega
  have hnlt : ¬ b.length < 4 := by rcases hlen with h | h <;> omega
  rcases hv with rfl | ⟨ds, hne, hdig, rfl⟩
  · rw [List.append_nil]
    have hrun : takeRun Char.isDigit (b ++ post) = (b, post) := by
      rcases hpost with rfl | ⟨c, cs, rfl, hcd, -⟩
      · rw [List.append_nil]
        exact takeRun_all _ _ hb
      · exact takeRun_append_stop _ _ _ _ hb hcd
    have hver : takeVer post = ([], post) := by
      rcases hpost with rfl | ⟨c, cs, rfl, -, hcv⟩
      · rfl
      · exact takeVer_not_v c cs hcv
    simp only [matchIdAfterDot, hrun]
    simp [hnlt, List.take_of_length_le hble, List.drop_eq_nil_of_le hble, hver]
  · rcases ds with _ | ⟨d, ds2⟩
    · exact absurd rfl hne
    have hd : d.isDigit = true := hdig d (by simp)
    have hds2 : ∀ c ∈ ds2, c.isDigit = true := fun c hc => hdig c (by simp [hc])
    have hrun : takeRun Char.isDigit (b ++ 'v' :: d :: (ds2 ++ post)) =
        (b, 'v' :: d :: (ds2 ++ post)) :=
      takeRun_append_stop _ b 'v' (d :: (ds2 ++ post)) hb (by decide)
    have hver := takeVer_v d ds2 post hd hds2 hpost
    have hshape : b ++ 'v' :: d :: ds2 ++ post = b ++ 'v' :: d :: (ds2 ++ post) := by
      simp
    rw [hshape]
    simp only [matchIdAfterDot, hrun]
    simp [hnlt, List.take_of_length_le hble, List.drop_eq_nil_of_le hble, hver]

/-- matchId accepts exactly the specified identifier shape at the head of the
input, leaving a non-extending continuation untouched. -/
theorem matchId_spec (a b v post : List Char)
    (ha : a.length = 4) (had : ∀ c ∈ a, c.isDigit = true)
    (hb : ∀ c ∈ b, c.isDigit = true) (hlen : b.length = 4 ∨ b.length = 5)
    (hv : v = [] ∨ ∃ ds, ds ≠ [] ∧ (∀ c ∈ ds, c.isDigit = true) ∧ v = 'v' :: ds)
    (hpost : post = [] ∨ ∃ c cs, post = c :: cs ∧ c.isDigit = false ∧ c ≠ 'v') :
    matchId ((a ++ '.' :: (b ++ v)) ++ post) = some (a ++ '.' :: (b ++ v), post) := by
  obtain ⟨a1, a2, a3, a4, rfl⟩ : ∃ a1 a2 a3 a4, a = [a1, a2, a3, a4] := by
    rcases a with _ | ⟨a1, a⟩
    · simp at ha
    rcases a with _ | ⟨a2, a⟩
    · simp at ha
    rcases a with _ | ⟨a3, a⟩
    · simp at ha
    rcases a with _ | ⟨a4, a⟩
    · simp at ha
    rcases a with _ | ⟨a5, a⟩
    · exact ⟨a1, a2, a3, a4, rfl⟩
    · simp only [List.length_cons] at ha
      omega
  have h1 := had a1 (by simp)
  have h2 := had a2 (by simp)
  have h3 := had a3 (by simp)
  have h4 := had a4 (by simp)
  have hkey := matchIdAfterDot_spec b v post hb hlen hv hpost
  show matchId (a1 :: a2 :: a3 :: a4 :: '.' :: ((b ++ v) ++ post)) = _
  have hrw : (b ++ v) ++ post = b ++ v ++ post := rfl
  simp only [matchId, h1, h2, h3, h4, hrw, hkey]
  simp

/-- matchId fails whenever the input starts with a non-digit character. -/
theorem matchId_short_none (c : Char) (cs : List Char) (hc : c.isDigit = false) :
    matchId (c :: cs) = none := by
  rcases cs with _ | ⟨c2, _ | ⟨c3, _ | ⟨c4, _ | ⟨c5, rest⟩⟩⟩⟩
  · rfl
  · rfl
  · rfl
  · rfl
  · simp [matchId, hc]

/-- bareIdMatch fails for a string starting with a non-digit character. -/
theorem bareIdMatch_false_head (s : String) (c : Char) (l : List Char)
    (hdata : s.data = c :: l) (hc : c.isDigit = false) : bareIdMatch s = false := by
  unfold bareIdMatch
  rw [hdata, matchId_short_none c l hc]

/-- Matching a literal pattern at the head of its own concatenation succeeds. -/
theorem stripPre_self : ∀ (p r : List Char), stripPre p (p ++ r) = some r := by
  intro p
  induction p with
  | nil => intro r; rfl
  | cons c ps ih =>
    intro r
    simp [stripPre, ih r]

/-- The arXiv search pattern fails at any position not starting with an a. -/
theorem matchArxivAt_cons_ne (c : Char) (cs : List Char) (hc : c ≠ 'a') :
    matchArxivAt (c :: cs) = none := by
  unfold matchArxivAt
  have hstrip : stripPre ['a', 'r', 'x', 'i', 'v', '.', 'o', 'r', 'g', '/'] (c :: cs) =
      none := by
    simp only [stripPre]
    rw [if_neg hc]
  rw [hstrip]

/-- The search skips a position whose head cannot start a match. -/
theorem searchArxiv_cons_skip (c : Char) (cs : List Char) (hc : c ≠ 'a') :
    searchArxiv (c :: cs) = searchArxiv cs := by
  conv_lhs => rw [searchArxiv]
  rw [matchArxivAt_cons_ne c cs hc]

/-- The search returns the capture of a position where the pattern matches. -/
theorem searchArxiv_hit (cs : List Char) (cap : List Char)
    (h : matchArxivAt cs = some cap) : searchArxiv cs = some cap := by
  cases cs with
  | nil =>
    exfalso
    rw [show matchArxivAt [] = none from rfl] at h
    cases h
  | cons c cs =>
    unfold searchArxiv
    rw [h]

/-- The search over a prefix free of the letter a followed by the arXiv host
path, an abs or pdf segment and an identifier-matching remainder returns the
identifier capture. -/
theorem searchArxiv_concat : ∀ (pre : List Char), (∀ c ∈ pre, c ≠ 'a') →
    ∀ (kind r2 cap rest : List Char),
    kind = ['a', 'b', 's', '/'] ∨ kind = ['p', 'd', 'f', '/'] →
    matchId r2 = some (cap, rest) →
    searchArxiv (pre ++ ['a', 'r', 'x', 'i', 'v', '.', 'o', 'r', 'g', '/'] ++ kind ++ r2) =
      some cap := by
  intro pre
  induction pre with
  | nil =>
    intro hpre kind r2 cap rest hkind hm
    simp only [List.nil_append]
    apply searchArxiv_hit
    unfold matchArxivAt
    rw [List.append_assoc, stripPre_self]
    dsimp only
    rcases hkind with rfl | rfl
    · rw [stripPre_self]
      dsimp only
      rw [hm]
      rfl
    · have habs : stripPre ['a', 'b', 's', '/'] (['p', 'd', 'f', '/'] ++ r2) = none := by
        rw [show (['p', 'd', 'f', '/'] ++ r2 : List Char) = 'p' :: (['d', 'f', '/'] ++ r2)
          from rfl]
        simp only [stripPre]
        rw [if_neg (by decide)]
      rw [habs, stripPre_self]
      dsimp only
      rw [hm]
      rfl
  | cons c pre ih =>
    intro hpre kind r2 cap rest hkind hm
    have hc : c ≠ 'a' := hpre c (by simp)
    have hskip : searchArxiv ((c :: pre) ++ ['a', 'r', 'x', 'i', 'v', '.', 'o', 'r', 'g', '/']
        ++ kind ++ r2) =
        searchArxiv (pre ++ ['a', 'r', 'x', 'i', 'v', '.', 'o', 'r', 'g', '/'] ++ kind ++ r2) := by
      rw [show ((c :: pre) ++ ['a', 'r', 'x', 'i', 'v', '.', 'o', 'r', 'g', '/'] ++ kind ++ r2 :
          List Char) =
          c :: (pre ++ ['a', 'r', 'x', 'i', 'v', '.', 'o', 'r', 'g', '/'] ++ kind ++ r2) from
        by simp]
      exact searchArxiv_cons_skip c _ hc
    rw [hskip]
    exact ih (fun x hx => hpre x (by simp [hx])) kind r2 cap rest hkind hm

/-- Rebuilding a string from its character data is the identity. -/
theorem String.mk_data_eq (s : String) : String.mk s.data = s := by
  cases s
  rfl

/-- Counterexample to C4 as stated: the string is neither a bare identifier
nor an arXiv URL (its host is not arxiv.org), yet extraction returns an
identifier, because the search pattern matches anywhere inside the string. -/
theorem C4_counterexample :
    extract_arxiv_id "xarxiv.org/abs/2501.01243" = some "2501.01243" ∧
    specIsArxivUrlHost "xarxiv.org/abs/2501.01243" = false ∧
    ¬ specValidId "xarxiv.org/abs/2501.01243" := by
  refine ⟨by decide, by decide, ?_⟩
  rintro ⟨a, b, v, heq, ha, had, -⟩
  have htake : a = ("xarxiv.org/abs/2501.01243" : String).data.take 4 := by
    rw [heq, ← ha, List.take_left]
  have hxa : a = ['x', 'a', 'r', 'x'] := by
    rw [htake]
    decide
  have hx := had 'x' (by rw [hxa]; simp)
  exact absurd hx (by decide)

/-- Claim C4 as amended: extraction returns every valid bare identifier
unchanged and extracts exactly the identifier from canonical arXiv abs and
pdf URLs; but because the URL pattern is searched anywhere in the input,
strings that merely contain an arxiv.org abs/pdf segment (and are not arXiv
URLs) also yield the embedded identifier instead of none. -/
theorem C4_identifier_extraction (idStr : String) (h : specValidId idStr) :
    extract_arxiv_id idStr = some idStr ∧
    extract_arxiv_id ("https://arxiv.org/abs/" ++ idStr) = some idStr ∧
    extract_arxiv_id ("https://arxiv.org/pdf/" ++ idStr ++ ".pdf") = some idStr ∧
    extract_arxiv_id ("xarxiv.org/abs/" ++ idStr) = some idStr := by
  obtain ⟨a, b, v, heq, ha, had, hblen, hbdig, hv⟩ := h
  have hcore : matchId ((a ++ '.' :: (b ++ v)) ++ []) = some (a ++ '.' :: (b ++ v), []) :=
    matchId_spec a b v [] ha had hbdig hblen hv (Or.inl rfl)
  have hcore0 : matchId idStr.data = some (idStr.data, []) := by
    rw [heq]
    rw [List.append_nil] at hcore
    exact hcore
  have hcorePdf : matchId (idStr.data ++ ['.', 'p', 'd', 'f']) =
      some (idStr.data, ['.', 'p', 'd', 'f']) := by
    have hspec := matchId_spec a b v ['.', 'p', 'd', 'f'] ha had hbdig hblen hv
      (Or.inr ⟨'.', ['p', 'd', 'f'], rfl, by decide, by decide⟩)
    rw [← heq] at hspec
    exact hspec
  have hbare : bareIdMatch idStr = true := by
    unfold bareIdMatch
    rw [hcore0]
    simp
  refine ⟨?_, ?_, ?_, ?_⟩
  · unfold extract_arxiv_id
    rw [hbare]
    simp
  · -- abs URL
    have hdata : ("https://arxiv.org/abs/" ++ idStr).data =
        (['h', 't', 't', 'p', 's', ':', '/', '/'] ++
          ['a', 'r', 'x', 'i', 'v', '.', 'o', 'r', 'g', '/'] ++ ['a', 'b', 's', '/']) ++
          idStr.data := by
      rw [String.data_append]
      rw [show ("https://arxiv.org/abs/" : String).data =
        (['h', 't', 't', 'p', 's', ':', '/', '/'] ++
          ['a', 'r', 'x', 'i', 'v', '.', 'o', 'r', 'g', '/'] ++ ['a', 'b', 's', '/'])
        from by decide]
    have hbf : bareIdMatch ("https://arxiv.org/abs/" ++ idStr) = false := by
      apply bareIdMatch_false_head _ 'h'
        (['t', 't', 'p', 's', ':', '/', '/', 'a', 'r', 'x', 'i', 'v', '.', 'o', 'r', 'g',
          '/', 'a', 'b', 's', '/'] ++ idStr.data)
      · rw [hdata]
        simp
      · decide
    have hsearch : searchArxiv ("https://arxiv.org/abs/" ++ idStr).data =
        some idStr.data := by
      rw [hdata, List.append_assoc]
      rw [show ((['h', 't', 't', 'p', 's', ':', '/', '/'] ++
          ['a', 'r', 'x', 'i', 'v', '.', 'o', 'r', 'g', '/']) ++
          (['a', 'b', 's', '/'] ++ idStr.data) : List Char) =
          ['h', 't', 't', 'p', 's', ':', '/', '/'] ++
            ['a', 'r', 'x', 'i', 'v', '.', 'o', 'r', 'g', '/'] ++ ['a', 'b', 's', '/'] ++
            idStr.data from by simp]
      exact searchArxiv_concat ['h', 't', 't', 'p', 's', ':', '/', '/'] (by decide)
        ['a', 'b', 's', '/'] idStr.data idStr.data [] (Or.inl rfl) hcore0
    unfold extract_arxiv_id
    rw [hbf]
    simp only [Bool.false_eq_true, if_false, hsearch, Option.map_some']
  · -- pdf URL with .pdf suffix
    have hdata : ("https://arxiv.org/pdf/" ++ idStr ++ ".pdf").data =
        (['h', 't', 't', 'p', 's', ':', '/', '/'] ++
          ['a', 'r', 'x', 'i', 'v', '.', 'o', 'r', 'g', '/'] ++ ['p', 'd', 'f', '/']) ++
          (idStr.data ++ ['.', 'p', 'd', 'f']) := by
      rw [String.data_append, String.data_append]
      rw [show ("https://arxiv.org/pdf/" : String).data =
        (['h', 't', 't', 'p', 's', ':', '/', '/'] ++
          ['a', 'r', 'x', 'i', 'v', '.', 'o', 'r', 'g', '/'] ++ ['p', 'd', 'f', '/'])
        from by decide]
      rw [show ((".pdf" : String).data) = ['.', 'p', 'd', 'f'] from by decide]
      rw [List.append_assoc]
    have hbf : bareIdMatch ("https://arxiv.org/pdf/" ++ idStr ++ ".pdf") = false := by
      apply bareIdMatch_false_head _ 'h'
        (['t', 't', 'p', 's', ':', '/', '/', 'a', 'r', 'x', 'i', 'v', '.', 'o', 'r', 'g',
          '/', 'p', 'd', 'f', '/'] ++ (idStr.data ++ ['.', 'p', 'd', 'f']))
      · rw [hdata]
        simp
      · decide
    have hsearch : searchArxiv ("https://arxiv.org/pdf/" ++ idStr ++ ".pdf").data =
        some idStr.data := by
      rw [hdata, List.append_assoc]
      rw [show ((['h', 't', 't', 'p', 's', ':', '/', '/'] ++
          ['a', 'r', 'x', 'i', 'v', '.', 'o', 'r', 'g', '/']) ++
          (['p', 'd', 'f', '/'] ++ (idStr.data ++ ['.', 'p', 'd', 'f'])) : List Char) =
          ['h', 't', 't', 'p', 's', ':', '/', '/'] ++
            ['a', 'r', 'x', 'i', 'v', '.', 'o', 'r', 'g', '/'] ++ ['p', 'd', 'f', '/'] ++
            (idStr.data ++ ['.', 'p', 'd', 'f']) from by simp]
      exact searchArxiv_concat ['h', 't', 't', 'p', 's', ':', '/', '/'] (by decide)
        ['p', 'd', 'f', '/'] (idStr.data ++ ['.', 'p', 'd', 'f']) idStr.data
        ['.', 'p', 'd', 'f'] (Or.inr rfl) hcorePdf
    unfold extract_arxiv_id
    rw [hbf]
    simp only [Bool.false_eq_true, if_false, hsearch, Option.map_some']
  · -- embedded in a non-arXiv host
    have hdata : ("xarxiv.org/abs/" ++ idStr).data =
        (['x'] ++ ['a', 'r', 'x', 'i', 'v', '.', 'o', 'r', 'g', '/'] ++
          ['a', 'b', 's', '/']) ++ idStr.data := by
      rw [String.data_append]
      rw [show ("xarxiv.org/abs/" : String).data =
        (['x'] ++ ['a', 'r', 'x', 'i', 'v', '.', 'o', 'r', 'g', '/'] ++ ['a', 'b', 's', '/'])
        from by decide]
    have hbf : bareIdMatch ("xarxiv.org/abs/" ++ idStr) = false := by
      apply bareIdMatch_false_head _ 'x'
        (['a', 'r', 'x', 'i', 'v', '.', 'o', 'r', 'g', '/', 'a', 'b', 's', '/'] ++
          idStr.data)
      · rw [hdata]
        simp
      · decide
    have hsearch : searchArxiv ("xarxiv.org/abs/" ++ idStr).data = some idStr.data := by
      rw [hdata, List.append_assoc]
      rw [show ((['x'] ++ ['a', 'r', 'x', 'i', 'v', '.', 'o', 'r', 'g', '/']) ++
          (['a', 'b', 's', '/'] ++ idStr.data) : List Char) =
          ['x'] ++ ['a', 'r', 'x', 'i', 'v', '.', 'o', 'r', 'g', '/'] ++ ['a', 'b', 's', '/'] ++
            idStr.data from by simp]
      exact searchArxiv_concat ['x'] (by decide) ['a', 'b', 's', '/'] idStr.data
        idStr.data [] (Or.inl rfl) hcore0
    unfold extract_arxiv_id
    rw [hbf]
    simp only [Bool.false_eq_true, if_false, hsearch, Option.map_some']

/-- Witness for C4 at the identifier 2501.01243. -/
theorem C4_identifier_extraction_witness :
    specValidId "2501.01243" ∧
    extract_arxiv_id "2501.01243" = some "2501.01243" ∧
    extract_arxiv_id ("https://arxiv.org/abs/" ++ "2501.01243") = some "2501.01243" ∧
    extract_arxiv_id ("https://arxiv.org/pdf/" ++ "2501.01243" ++ ".pdf") =
      some "2501.01243" := by
  have hval : specValidId "2501.01243" :=
    ⟨['2', '5', '0', '1'], ['0', '1', '2', '4', '3'], [], by decide, by decide, by decide,
      Or.inr (by decide), by decide, Or.inl rfl⟩
  obtain ⟨h1, h2, h3, -⟩ := C4_identifier_extraction "2501.01243" hval
  exact ⟨hval, h1, h2, h3⟩
